import Mathlib

/-!
Verification of the realtime audio session core of BizFlow Pro
(`src/hooks/useLiveApi.ts`): the PCM codec helpers (`decode`, `encode`,
`downsample`, `createBlob`), the playback scheduler embedded in the
`onmessage` callback, and the `connect`/`disconnect` lifecycle of the
session controller.

Numbers are modelled exactly: byte values as `Nat` below 256, audio
samples and clock times as `ℚ`.  JavaScript quirks that matter to the
claims — truncating conversion on `Int16Array` assignment and the
falsy-zero semantics of the `||` operator — are modelled explicitly.
-/

namespace BizFlow

set_option autoImplicit false

/-! ### Base64 codec (`decode` / `encode`, useLiveApi.ts lines 33–51)

The source wraps the platform primitives `atob` / `btoa` around
byte-per-character loops (`charCodeAt` / `fromCharCode`).  For byte
values below 256 the composite is exactly RFC 4648 base64 over the
byte buffer, which is what we embed here. -/

/-- The standard base64 alphabet used by `btoa` / `atob`. -/
def b64Alphabet : List Char :=
  ['A', 'B', 'C', 'D', 'E', 'F', 'G', 'H', 'I', 'J', 'K', 'L', 'M',
   'N', 'O', 'P', 'Q', 'R', 'S', 'T', 'U', 'V', 'W', 'X', 'Y', 'Z',
   'a', 'b', 'c', 'd', 'e', 'f', 'g', 'h', 'i', 'j', 'k', 'l', 'm',
   'n', 'o', 'p', 'q', 'r', 's', 't', 'u', 'v', 'w', 'x', 'y', 'z',
   '0', '1', '2', '3', '4', '5', '6', '7', '8', '9', '+', '/']

/-- Sextet value to base64 digit. -/
def b64Char (n : Nat) : Char := b64Alphabet.getD n 'A'

/-- Base64 digit back to its sextet value. -/
def b64Val (c : Char) : Nat := b64Alphabet.indexOf c

/-- `encode` (useLiveApi.ts lines 44–51): bytes to base64 text, groups of
three bytes becoming four digits, with `=` padding on a short tail. -/
def encode : List Nat → List Char
  | [] => []
  | [b0] =>
      [b64Char (b0 / 4), b64Char (b0 % 4 * 16), '=', '=']
  | [b0, b1] =>
      [b64Char (b0 / 4), b64Char (b0 % 4 * 16 + b1 / 16),
       b64Char (b1 % 16 * 4), '=']
  | b0 :: b1 :: b2 :: rest =>
      b64Char (b0 / 4) :: b64Char (b0 % 4 * 16 + b1 / 16) ::
      b64Char (b1 % 16 * 4 + b2 / 64) :: b64Char (b2 % 64) :: encode rest

/-- `decode` (useLiveApi.ts lines 33–41): base64 text to bytes, reading
four digits at a time and honouring `=` padding at the tail. -/
def decode : List Char → List Nat
  | c0 :: c1 :: c2 :: c3 :: rest =>
      if c2 = '=' then
        [b64Val c0 * 4 + b64Val c1 / 16]
      else if c3 = '=' then
        [b64Val c0 * 4 + b64Val c1 / 16,
         b64Val c1 % 16 * 16 + b64Val c2 / 4]
      else
        (b64Val c0 * 4 + b64Val c1 / 16) ::
        (b64Val c1 % 16 * 16 + b64Val c2 / 4) ::
        (b64Val c2 % 4 * 64 + b64Val c3) :: decode rest
  | _ => []

/-! ### Resampler (`downsample`, useLiveApi.ts lines 54–73)

`buffer[i]` on a `Float32Array` yields `undefined` out of range, and the
source reads samples through the JavaScript `||` operator, which falls
through on `undefined` *and on the number 0*.  Both behaviours are
modelled: `jsGet` is the indexing, `jsOr` the `||`. -/

/-- JavaScript array indexing: `some` value in range, `none` (undefined)
otherwise.  The index is an integer because it comes from `Math.floor` /
`Math.ceil`. -/
def jsGet (buffer : List ℚ) (i : ℤ) : Option ℚ :=
  if 0 ≤ i then buffer.get? i.toNat else none

/-- JavaScript `x || d` on a possibly-undefined number `x`: yields `x`
unless `x` is `undefined` or the (falsy) number 0, in which case `d`. -/
def jsOr (x : Option ℚ) (d : ℚ) : ℚ :=
  match x with
  | some v => if v = 0 then d else v
  | none => d

/-- `downsample` (useLiveApi.ts lines 54–73): identity when the rates are
equal, otherwise linear interpolation at positions `i * ratio`, with
`v0 = buffer[floor] || 0` and `v1 = buffer[ceil] || buffer[floor] || 0`.
Note `(a || b) || 0 = a || (b || 0)`, so `v1 = jsOr (jsGet buffer ceil) v0`. -/
def downsample (buffer : List ℚ) (inputRate outputRate : ℚ) : List ℚ :=
  if inputRate = outputRate then buffer
  else
    let ratio := inputRate / outputRate
    let newLength := (round ((buffer.length : ℚ) / ratio)).toNat
    (List.range newLength).map fun (i : ℕ) =>
      let index : ℚ := (i : ℚ) * ratio
      let t : ℚ := index - ⌊index⌋
      let v0 := jsOr (jsGet buffer ⌊index⌋) 0
      let v1 := jsOr (jsGet buffer ⌈index⌉) v0
      v0 + (v1 - v0) * t

/-- Modelled from the spec: §4.2's resampler contract, used only to compare
against the source's `downsample`.  For target index `i` it maps to source
position `i * sourceRate / targetRate`, reads the two bracketing source
samples — clamped at the buffer end by repeating the last sample — and
linearly blends them by the fractional offset. -/
def resampleSpec (s : List ℚ) (sourceRate targetRate : ℚ) : List ℚ :=
  if sourceRate = targetRate then s
  else
    let ratio := sourceRate / targetRate
    let n := (round ((s.length : ℚ) / ratio)).toNat
    (List.range n).map fun (i : ℕ) =>
      let pos : ℚ := (i : ℚ) * ratio
      let t : ℚ := pos - ⌊pos⌋
      let v0 := s.getD (⌊pos⌋).toNat 0
      let v1 := if (⌈pos⌉).toNat < s.length then s.getD (⌈pos⌉).toNat 0
                else s.getD (s.length - 1) 0
      v0 + (v1 - v0) * t

/-! ### Output bounds of the resampler (for C10) -/

/-- Lower bound of the input samples together with 0. -/
def loBound (l : List ℚ) : ℚ := l.foldr min 0

/-- Upper bound of the input samples together with 0. -/
def hiBound (l : List ℚ) : ℚ := l.foldr max 0

/-! ### Playback scheduler (`onmessage`, useLiveApi.ts lines 174–209) -/

/-- An active playback source (an `AudioBufferSourceNode` held in
`sourcesRef`): `ended` is true once it has stopped playing, naturally or
by force. -/
structure AudioSource where
  id : Nat
  ended : Bool
deriving DecidableEq

/-- `src.stop()` wrapped in `try { … } catch(e) {}` (lines 203–205 and
250–252): total, and a no-op on a source that has already ended. -/
def stopSource (s : AudioSource) : AudioSource := { s with ended := true }

/-- The playback scheduler's state: the Active Source Set (`sourcesRef`)
and `nextStartTimeRef`. -/
structure SchedState where
  sources : List AudioSource
  nextStartTime : ℚ
deriving DecidableEq

/-- Scheduling one decoded buffer (lines 186–199): compute
`startTime = max(nextStartTime, clockNow)`, start the source there,
advance `nextStartTime` to `startTime + duration`, and add the source to
the Active Source Set.  Returns the new state and the start time. -/
def scheduleBuffer (st : SchedState) (clockNow dur : ℚ) (freshId : Nat) :
    SchedState × ℚ :=
  let startTime := max st.nextStartTime clockNow
  (⟨st.sources ++ [⟨freshId, false⟩], startTime + dur⟩, startTime)

/-- The interruption branch (lines 202–207): force-stop every source in
the Active Source Set, clear the set, and reset `nextStartTime` to 0.
Returns the new state together with the stopped sources. -/
def handleInterruption (st : SchedState) : SchedState × List AudioSource :=
  (⟨[], 0⟩, st.sources.map stopSource)

/-- A server message envelope: an optional base64 inbound-audio payload
(`serverContent.modelTurn.parts[0].inlineData.data`) and the
`serverContent.interrupted` flag. -/
structure ServerMessage where
  audioData : Option (List Char)
  interrupted : Bool

/-- Observable scheduler actions, for tracing what `onmessage` did. -/
inductive AudioEvent where
  | started (id : Nat) (startTime : ℚ)
  | stopped (id : Nat)
deriving DecidableEq

/-- Duration of a decoded inbound buffer: `decodeAudioData` (lines 90–111)
reinterprets the decoded bytes as 16-bit samples (`byteLength / 2`), with
one channel, and the resulting buffer's duration is
`frameCount / sampleRate` at the fixed inbound rate of 24000 Hz. -/
def inboundDuration (b64 : List Char) : ℚ :=
  (((decode b64).length / 2 : ℕ) : ℚ) / 24000

/-- The `onmessage` callback (lines 174–209): if the message carries an
inbound audio payload, decode and schedule it; then, in a separate and
independent check, if the message carries the `interrupted` flag, stop and
clear all active sources and reset `nextStartTime`.  Both branches run
when both fields are present. -/
def onmessage (st : SchedState) (clockNow : ℚ) (freshId : Nat)
    (msg : ServerMessage) : SchedState × List AudioEvent :=
  let p1 :=
    match msg.audioData with
    | some b64 =>
        let p := scheduleBuffer st clockNow (inboundDuration b64) freshId
        (p.1, [AudioEvent.started freshId p.2])
    | none => (st, ([] : List AudioEvent))
  if msg.interrupted then
    let p := handleInterruption p1.1
    (p.1, p1.2 ++ p.2.map fun s => AudioEvent.stopped s.id)
  else
    p1

/-- The start times produced by feeding a sequence of
(clock reading, buffer duration) pairs through the scheduling rule of
lines 186–199, with no interruption: each start time is
`max(nextStartTime, clockNow)` and `nextStartTime` then advances to
`startTime + duration`. -/
def scheduleStarts (next : ℚ) : List (ℚ × ℚ) → List ℚ
  | [] => []
  | (clock, d) :: rest =>
      let startTime := max next clock
      startTime :: scheduleStarts (startTime + d) rest

/-! ### Session controller (`connect` / `disconnect`, lines 112–272)

The controller's observable state and refs are embedded as a record;
external resource handles (microphone streams, transport connections,
audio contexts) are identified by numeric ids, a `none` field modelling a
null ref.  `Resources` counts how many transport connections have been
opened and not closed, and how many microphone streams have been acquired
and not released, across the controller's lifetime. -/

/-- The `useLiveApi` controller: observable fields (`isConnected`,
`isConnecting`, `errorMsg`, `volume`) and refs (`streamRef`,
`scriptProcessorRef`, `inputContextRef`, `audioContextRef`,
`sessionPromiseRef`, `sourcesRef`, `nextStartTimeRef`). -/
structure Controller where
  isConnected : Bool
  isConnecting : Bool
  errorMsg : Option String
  volume : ℚ
  stream : Option Nat
  scriptProcessor : Option Nat
  inputCtx : Option Nat
  outputCtx : Option Nat
  sessionConn : Option Nat
  sources : List AudioSource
  nextStartTime : ℚ
deriving DecidableEq

/-- Count of currently open transport connections and currently active
(not released) microphone capture streams. -/
structure Resources where
  openTransports : Nat
  activeMicStreams : Nat
deriving DecidableEq

/-- The controller's initial, never-connected state. -/
def initController : Controller :=
  ⟨false, false, none, 0, none, none, none, none, none, [], 0⟩

/-- `connect` (lines 112–230), success path up to the transport-open call:
sets `isConnecting`, clears the error, creates fresh input and output
audio contexts, initializes `nextStartTime` from the output clock,
acquires a microphone stream, and opens a transport connection.  There is
no guard on the current state, and previously held refs are overwritten,
not closed or released. -/
def connect (s : Controller) (r : Resources) (clockNow : ℚ)
    (streamId ctxId sessId : Nat) : Controller × Resources :=
  ({ s with
      isConnecting := true
      errorMsg := none
      inputCtx := some ctxId
      outputCtx := some (ctxId + 1)
      nextStartTime := clockNow
      stream := some streamId
      sessionConn := some sessId },
   ⟨r.openTransports + 1, r.activeMicStreams + 1⟩)

/-- `disconnect` (lines 232–272): stop and release the microphone stream,
disconnect the script processor (guarded on both the processor and the
input context being non-null, as in the source), close both audio
contexts, stop all playback sources and clear the set, close the session,
and reset the observable flags and the volume.  Every branch is guarded
on the ref being non-null, so the function is total from any state. -/
def disconnect (s : Controller) (r : Resources) : Controller × Resources :=
  let r1 : Resources := match s.stream with
    | some _ => ⟨r.openTransports, r.activeMicStreams - 1⟩
    | none => r
  let s1 := { s with stream := none }
  let s2 := match s1.scriptProcessor, s1.inputCtx with
    | some _, some _ => { s1 with scriptProcessor := none }
    | _, _ => s1
  let s3 := { s2 with inputCtx := none }
  let s4 := { s3 with sources := [], outputCtx := none }
  let r2 : Resources := match s4.sessionConn with
    | some _ => ⟨r1.openTransports - 1, r1.activeMicStreams⟩
    | none => r1
  let s5 := { s4 with sessionConn := none }
  ({ s5 with isConnected := false, isConnecting := false, volume := 0 }, r2)

/-- The `disconnected` state of the spec's state machine: no held
resources, both flags down. -/
def isDisconnected (s : Controller) : Prop :=
  s.isConnected = false ∧ s.isConnecting = false ∧ s.stream = none ∧
  s.scriptProcessor = none ∧ s.inputCtx = none ∧ s.outputCtx = none ∧
  s.sessionConn = none ∧ s.sources = []

/-! ### Float→PCM16 encoder (`createBlob`, lines 76–87) -/

/-- JavaScript's ToInteger conversion as applied on assignment into an
`Int16Array`: truncation toward zero. -/
def jsTrunc (x : ℚ) : ℤ := if 0 ≤ x then ⌊x⌋ else ⌈x⌉

/-- One sample through `Math.max(-1, Math.min(1, data[i])) * 0x7FFF` and
the truncating `Int16Array` store (line 82). -/
def pcm16Sample (x : ℚ) : ℤ := jsTrunc (max (-1) (min 1 x) * 32767)

/-- The two little-endian bytes of a 16-bit two's-complement value, as
exposed by viewing the `Int16Array`'s backing buffer as a `Uint8Array`
(line 84). -/
def int16LEBytes (v : ℤ) : List Nat :=
  [(v % 65536).toNat % 256, (v % 65536).toNat / 256]

/-- `createBlob` (lines 76–87): every sample clamped to `[-1, 1]`, scaled
by `0x7FFF`, truncated into an `Int16Array`, whose backing buffer is then
reinterpreted as a byte sequence. -/
def createBlobBytes (data : List ℚ) : List Nat :=
  (data.map pcm16Sample).flatMap int16LEBytes

/-! ### Theorems -/

theorem b64Val_b64Char : ∀ n, n < 64 → b64Val (b64Char n) = n := by decide

theorem b64Char_ne_pad : ∀ n, n < 64 → b64Char n ≠ '=' := by decide

/-- C5: base64 round-trip — decoding the base64 text produced by encoding
any byte buffer (all values below 256) yields exactly that buffer. -/
theorem decode_encode_roundtrip (l : List Nat) (h : ∀ b ∈ l, b < 256) :
    decode (encode l) = l := by
  induction l using encode.induct with
  | case1 =>
      simp [encode, decode]
  | case2 b0 =>
      have hb0 : b0 < 256 := h b0 (by simp)
      have h0 : b0 / 4 < 64 := by omega
      have h1 : b0 % 4 * 16 < 64 := by omega
      simp only [encode, decode, reduceIte]
      rw [b64Val_b64Char _ h0, b64Val_b64Char _ h1]
      simp only [List.cons.injEq, and_true]
      omega
  | case3 b0 b1 =>
      have hb0 : b0 < 256 := h b0 (by simp)
      have hb1 : b1 < 256 := h b1 (by simp)
      have h0 : b0 / 4 < 64 := by omega
      have h1 : b0 % 4 * 16 + b1 / 16 < 64 := by omega
      have h2 : b1 % 16 * 4 < 64 := by omega
      simp only [encode, decode, if_neg (b64Char_ne_pad _ h2), reduceIte]
      rw [b64Val_b64Char _ h0, b64Val_b64Char _ h1, b64Val_b64Char _ h2]
      simp only [List.cons.injEq, and_true]
      omega
  | case4 b0 b1 b2 rest ih =>
      have hb0 : b0 < 256 := h b0 (by simp)
      have hb1 : b1 < 256 := h b1 (by simp)
      have hb2 : b2 < 256 := h b2 (by simp)
      have h0 : b0 / 4 < 64 := by omega
      have h1 : b0 % 4 * 16 + b1 / 16 < 64 := by omega
      have h2 : b1 % 16 * 4 + b2 / 64 < 64 := by omega
      have h3 : b2 % 64 < 64 := by omega
      have hrest : ∀ b ∈ rest, b < 256 := by
        intro b hb
        exact h b (by simp [hb])
      simp only [encode, decode, if_neg (b64Char_ne_pad _ h2),
        if_neg (b64Char_ne_pad _ h3)]
      rw [b64Val_b64Char _ h0, b64Val_b64Char _ h1, b64Val_b64Char _ h2,
        b64Val_b64Char _ h3, ih hrest]
      simp only [List.cons.injEq, and_true]
      omega

/-- C5 witness: the round-trip evaluated on a concrete byte buffer. -/
theorem decode_encode_roundtrip_witness :
    decode (encode [66, 105, 122, 255, 0]) = [66, 105, 122, 255, 0] :=
  decode_encode_roundtrip [66, 105, 122, 255, 0] (by decide)

/-- C6: the resampler is *not* exact linear interpolation whenever both
bracketing positions are in range.  On buffer `[0, 1, 0, 0]` resampled from
48000 Hz to 32000 Hz, output index 1 brackets samples `1` (floor) and `0`
(ceil) with fractional offset `1/2`; exact interpolation gives `1/2`, but
the code's `buffer[ceil] || buffer[floor] || 0` treats the in-range sample
value `0` as falsy and yields the floor sample `1` instead. -/
theorem downsample_zero_sample_divergence :
    downsample [0, 1, 0, 0] 48000 32000 = [0, 1, 0] ∧
    resampleSpec [0, 1, 0, 0] 48000 32000 = [0, 1/2, 0] ∧
    downsample [0, 1, 0, 0] 48000 32000 ≠
      resampleSpec [0, 1, 0, 0] 48000 32000 := by
  have h1 : downsample [0, 1, 0, 0] 48000 32000 = [0, 1, 0] := by
    unfold downsample
    norm_num [round_eq]
    rw [show Int.toNat 3 = 3 from rfl, show List.range 3 = [0, 1, 2] from rfl]
    simp only [List.map_cons, List.map_nil]
    norm_num [jsGet, jsOr, Int.fract, -Int.self_sub_floor]
    rw [show (⌈(3:ℚ)/2⌉ : ℤ) = 2 by norm_num [Int.ceil_eq_iff]]
    simp only [show Int.toNat 2 = 2 from rfl, show Int.toNat 3 = 3 from rfl]
    norm_num
  have h2 : resampleSpec [0, 1, 0, 0] 48000 32000 = [0, 1/2, 0] := by
    unfold resampleSpec
    norm_num [round_eq]
    rw [show Int.toNat 3 = 3 from rfl, show List.range 3 = [0, 1, 2] from rfl]
    simp only [List.map_cons, List.map_nil]
    norm_num [Int.fract, -Int.self_sub_floor]
    rw [show (⌈(3:ℚ)/2⌉ : ℤ) = 2 by norm_num [Int.ceil_eq_iff]]
    simp only [show Int.toNat 2 = 2 from rfl, show Int.toNat 3 = 3 from rfl]
    norm_num
  refine ⟨h1, h2, ?_⟩
  rw [h1, h2]
  intro hcontra
  have := List.cons.inj hcontra
  have := List.cons.inj this.2
  norm_num at this

/-- C7: resampler length law `len(out) = round(len(s) * r2 / r1)` for
positive rates, and identity `resample(s, r, r) = s` at equal rates. -/
theorem downsample_length_and_identity (s : List ℚ) (r1 r2 r : ℚ)
    (h1 : 0 < r1) (h2 : 0 < r2) :
    ((downsample s r1 r2).length : ℤ) = round ((s.length : ℚ) * r2 / r1) ∧
    downsample s r r = s := by
  constructor
  · by_cases he : r1 = r2
    · subst he
      unfold downsample
      rw [if_pos rfl, mul_div_assoc, div_self (ne_of_gt h1), mul_one,
        round_natCast]
    · simp only [downsample, if_neg he, List.length_map, List.length_range]
      have hq : (0 : ℚ) ≤ (s.length : ℚ) / (r1 / r2) :=
        div_nonneg (Nat.cast_nonneg s.length) (div_nonneg h1.le h2.le)
      have hr : 0 ≤ round ((s.length : ℚ) / (r1 / r2)) := by
        rw [round_eq]
        refine Int.le_floor.mpr ?_
        push_cast
        linarith
      rw [Int.toNat_of_nonneg hr, div_div_eq_mul_div]
  · simp [downsample]

/-- C7 witness: length law at `[1, 2, 3]`, 48000 Hz → 16000 Hz, and
identity at rate 5. -/
theorem downsample_length_and_identity_witness :
    ((downsample [1, 2, 3] 48000 16000).length : ℤ) =
      round ((([1, 2, 3] : List ℚ).length : ℚ) * 16000 / 48000) ∧
    downsample [1, 2, 3] 5 5 = [1, 2, 3] :=
  downsample_length_and_identity [1, 2, 3] 48000 16000 5
    (by norm_num) (by norm_num)

theorem loBound_nonpos (l : List ℚ) : loBound l ≤ 0 := by
  induction l with
  | nil => simp [loBound]
  | cons a l ih =>
      simp only [loBound, List.foldr_cons] at ih ⊢
      exact le_trans (min_le_right _ _) ih

theorem hiBound_nonneg (l : List ℚ) : 0 ≤ hiBound l := by
  induction l with
  | nil => simp [hiBound]
  | cons a l ih =>
      simp only [hiBound, List.foldr_cons] at ih ⊢
      exact le_trans ih (le_max_right _ _)

theorem loBound_le (l : List ℚ) (x : ℚ) (hx : x ∈ l) : loBound l ≤ x := by
  induction l with
  | nil => cases hx
  | cons a l ih =>
      simp only [loBound, List.foldr_cons]
      rcases List.mem_cons.mp hx with h | h
      · exact h ▸ min_le_left _ _
      · exact le_trans (min_le_right _ _) (ih h)

theorem le_hiBound (l : List ℚ) (x : ℚ) (hx : x ∈ l) : x ≤ hiBound l := by
  induction l with
  | nil => cases hx
  | cons a l ih =>
      simp only [hiBound, List.foldr_cons]
      rcases List.mem_cons.mp hx with h | h
      · exact h ▸ le_max_left _ _
      · exact le_trans (ih h) (le_max_right _ _)

theorem jsGet_mem (buffer : List ℚ) (k : ℤ) (v : ℚ)
    (h : jsGet buffer k = some v) : v ∈ buffer := by
  unfold jsGet at h
  split at h
  · exact List.get?_mem h
  · cases h

theorem jsOr_bounds (buffer : List ℚ) (o : Option ℚ) (d : ℚ)
    (ho : ∀ v, o = some v → v ∈ buffer)
    (h1 : loBound buffer ≤ d) (h2 : d ≤ hiBound buffer) :
    loBound buffer ≤ jsOr o d ∧ jsOr o d ≤ hiBound buffer := by
  cases o with
  | none => exact ⟨h1, h2⟩
  | some v =>
      simp only [jsOr]
      split
      · exact ⟨h1, h2⟩
      · exact ⟨loBound_le buffer v (ho v rfl), le_hiBound buffer v (ho v rfl)⟩

/-- C10: the resampler never amplifies — every output sample lies between
the minimum and the maximum of the input sample values together with 0,
each output being a convex blend of two values drawn from the input
samples or 0. -/
theorem downsample_no_amplification (buffer : List ℚ) (r1 r2 x : ℚ)
    (hx : x ∈ downsample buffer r1 r2) :
    loBound buffer ≤ x ∧ x ≤ hiBound buffer := by
  unfold downsample at hx
  split at hx
  · exact ⟨loBound_le buffer x hx, le_hiBound buffer x hx⟩
  · simp only [List.mem_map, List.mem_range] at hx
    obtain ⟨i, _, rfl⟩ := hx
    have ht0 : (0 : ℚ) ≤ (i : ℚ) * (r1 / r2) - ⌊(i : ℚ) * (r1 / r2)⌋ := by
      have := Int.floor_le ((i : ℚ) * (r1 / r2))
      linarith
    have ht1 : (i : ℚ) * (r1 / r2) - ⌊(i : ℚ) * (r1 / r2)⌋ ≤ 1 := by
      have := Int.lt_floor_add_one ((i : ℚ) * (r1 / r2))
      linarith
    have hv0 := jsOr_bounds buffer (jsGet buffer ⌊(i : ℚ) * (r1 / r2)⌋) 0
      (fun v hv => jsGet_mem buffer _ v hv)
      (loBound_nonpos buffer) (hiBound_nonneg buffer)
    have hv1 := jsOr_bounds buffer (jsGet buffer ⌈(i : ℚ) * (r1 / r2)⌉)
      (jsOr (jsGet buffer ⌊(i : ℚ) * (r1 / r2)⌋) 0)
      (fun v hv => jsGet_mem buffer _ v hv) hv0.1 hv0.2
    constructor
    · have p1 : 0 ≤ (jsOr (jsGet buffer ⌊(i : ℚ) * (r1 / r2)⌋) 0 - loBound buffer) *
          (1 - ((i : ℚ) * (r1 / r2) - ⌊(i : ℚ) * (r1 / r2)⌋)) :=
        mul_nonneg (by linarith [hv0.1]) (by linarith)
      have p2 : 0 ≤ (jsOr (jsGet buffer ⌈(i : ℚ) * (r1 / r2)⌉)
            (jsOr (jsGet buffer ⌊(i : ℚ) * (r1 / r2)⌋) 0) - loBound buffer) *
          ((i : ℚ) * (r1 / r2) - ⌊(i : ℚ) * (r1 / r2)⌋) :=
        mul_nonneg (by linarith [hv1.1]) ht0
      nlinarith [p1, p2]
    · have p1 : 0 ≤ (hiBound buffer - jsOr (jsGet buffer ⌊(i : ℚ) * (r1 / r2)⌋) 0) *
          (1 - ((i : ℚ) * (r1 / r2) - ⌊(i : ℚ) * (r1 / r2)⌋)) :=
        mul_nonneg (by linarith [hv0.2]) (by linarith)
      have p2 : 0 ≤ (hiBound buffer - jsOr (jsGet buffer ⌈(i : ℚ) * (r1 / r2)⌉)
            (jsOr (jsGet buffer ⌊(i : ℚ) * (r1 / r2)⌋) 0)) *
          ((i : ℚ) * (r1 / r2) - ⌊(i : ℚ) * (r1 / r2)⌋) :=
        mul_nonneg (by linarith [hv1.2]) ht0
      nlinarith [p1, p2]

/-- C10 witness: the bound evaluated on a concrete resampling. -/
theorem downsample_no_amplification_witness :
    loBound [0, 1, 0, 0] ≤ 1 ∧ (1 : ℚ) ≤ hiBound [0, 1, 0, 0] := by
  refine downsample_no_amplification [0, 1, 0, 0] 48000 32000 1 ?_
  have h1 : downsample [0, 1, 0, 0] 48000 32000 = [0, 1, 0] := by
    unfold downsample
    norm_num [round_eq]
    rw [show Int.toNat 3 = 3 from rfl, show List.range 3 = [0, 1, 2] from rfl]
    simp only [List.map_cons, List.map_nil]
    norm_num [jsGet, jsOr, Int.fract, -Int.self_sub_floor]
    rw [show (⌈(3:ℚ)/2⌉ : ℤ) = 2 by norm_num [Int.ceil_eq_iff]]
    simp only [show Int.toNat 2 = 2 from rfl, show Int.toNat 3 = 3 from rfl]
    norm_num
  rw [h1]
  norm_num

/-- C2: scheduler non-overlap — for any initial `nextStartTime`, any
sequence of (clock, duration) events with nonnegative durations and
non-decreasing clock readings, consecutive start times satisfy
`start[i] + d[i] ≤ start[i+1]`, and the start times are non-decreasing. -/
theorem scheduler_non_overlap (n0 : ℚ) (evs : List (ℚ × ℚ))
    (hdur : ∀ e ∈ evs, 0 ≤ e.2)
    (hclock : (evs.map Prod.fst).Chain' (· ≤ ·)) (i : ℕ)
    (hi : i + 1 < evs.length) :
    (scheduleStarts n0 evs).getD i 0 + (evs.getD i (0, 0)).2 ≤
        (scheduleStarts n0 evs).getD (i + 1) 0 ∧
    (scheduleStarts n0 evs).getD i 0 ≤
        (scheduleStarts n0 evs).getD (i + 1) 0 := by
  induction evs generalizing n0 i with
  | nil => simp at hi
  | cons e rest ih =>
      obtain ⟨c, d⟩ := e
      have hd : 0 ≤ d := hdur (c, d) (by simp)
      cases i with
      | zero =>
          cases rest with
          | nil => simp at hi
          | cons e1 rest1 =>
              obtain ⟨c1, d1⟩ := e1
              simp only [scheduleStarts, List.getD_cons_zero,
                List.getD_cons_succ]
              constructor
              · exact le_max_left _ _
              · calc max n0 c ≤ max n0 c + d := by linarith
                  _ ≤ max (max n0 c + d) c1 := le_max_left _ _
      | succ j =>
          have hdur1 : ∀ e ∈ rest, 0 ≤ e.2 := fun e he =>
            hdur e (List.mem_cons_of_mem _ he)
          have hclock1 : (rest.map Prod.fst).Chain' (· ≤ ·) := by
            have := hclock
            simp only [List.map_cons] at this
            exact this.tail
          have hj : j + 1 < rest.length := by
            simpa using Nat.lt_of_succ_lt_succ hi
          have := ih (max n0 c + d) hdur1 hclock1 j hj
          simpa [scheduleStarts] using this

/-- C2 witness: the non-overlap law evaluated on two concrete buffers. -/
theorem scheduler_non_overlap_witness :
    (scheduleStarts 0 [(0, 1), (2, 2)]).getD 0 0 +
        (([(0, 1), (2, 2)] : List (ℚ × ℚ)).getD 0 (0, 0)).2 ≤
      (scheduleStarts 0 [(0, 1), (2, 2)]).getD 1 0 ∧
    (scheduleStarts 0 [(0, 1), (2, 2)]).getD 0 0 ≤
      (scheduleStarts 0 [(0, 1), (2, 2)]).getD 1 0 :=
  scheduler_non_overlap 0 [(0, 1), (2, 2)]
    (by intro e he; fin_cases he <;> norm_num)
    (by simp [List.chain'_cons]) 0 (by norm_num)

/-- C3: after the interruption branch, every source taken from the Active
Source Set has been force-stopped, the set is empty and `nextStartTime` is
0, so the next buffer scheduled at a (nonnegative) clock time starts
exactly at that clock time; and force-stopping an already-ended source is
a no-op. -/
theorem interruption_resets_scheduler (st : SchedState) (clockNow dur : ℚ)
    (freshId : Nat) (hclock : 0 ≤ clockNow) :
    (∀ s ∈ (handleInterruption st).2, s.ended = true) ∧
    (handleInterruption st).1.sources = [] ∧
    (handleInterruption st).1.nextStartTime = 0 ∧
    (scheduleBuffer (handleInterruption st).1 clockNow dur freshId).2 =
      clockNow ∧
    (∀ s : AudioSource, s.ended = true → stopSource s = s) := by
  refine ⟨?_, rfl, rfl, ?_, ?_⟩
  · intro s hs
    simp only [handleInterruption, List.mem_map] at hs
    obtain ⟨a, _, rfl⟩ := hs
    rfl
  · simp only [scheduleBuffer, handleInterruption]
    exact max_eq_right hclock
  · intro s hs
    cases s with
    | mk i e =>
        cases hs
        rfl

/-- C3 witness: the interruption reset evaluated on a concrete state. -/
theorem interruption_resets_scheduler_witness :
    (∀ s ∈ (handleInterruption ⟨[⟨1, true⟩, ⟨2, false⟩], 5⟩).2,
      s.ended = true) ∧
    (handleInterruption ⟨[⟨1, true⟩, ⟨2, false⟩], 5⟩).1.sources = [] ∧
    (handleInterruption ⟨[⟨1, true⟩, ⟨2, false⟩], 5⟩).1.nextStartTime = 0 ∧
    (scheduleBuffer (handleInterruption ⟨[⟨1, true⟩, ⟨2, false⟩], 5⟩).1
      3 1 7).2 = 3 ∧
    (∀ s : AudioSource, s.ended = true → stopSource s = s) :=
  interruption_resets_scheduler ⟨[⟨1, true⟩, ⟨2, false⟩], 5⟩ 3 1 7
    (by norm_num)

/-- C9: the audio payload and the interruption flag of a single message
are checked and processed independently — the payload, when present, is
scheduled (a `started` event at `max(nextStartTime, clockNow)` is in the
trace), and the interruption flag, when present, empties the Active
Source Set and resets `nextStartTime`, including when both appear in the
same message. -/
theorem onmessage_checks_independent (st : SchedState) (clockNow : ℚ)
    (freshId : Nat) (msg : ServerMessage) :
    (∀ b64, msg.audioData = some b64 →
      AudioEvent.started freshId (max st.nextStartTime clockNow) ∈
        (onmessage st clockNow freshId msg).2) ∧
    (msg.interrupted = true →
      (onmessage st clockNow freshId msg).1.sources = [] ∧
      (onmessage st clockNow freshId msg).1.nextStartTime = 0) := by
  obtain ⟨audio, intr⟩ := msg
  constructor
  · intro b64 hb
    cases hb
    cases intr <;>
      simp [onmessage, scheduleBuffer, handleInterruption]
  · intro hint
    cases hint
    cases audio <;>
      simp [onmessage, scheduleBuffer, handleInterruption]

/-- C9 witness: a message carrying both an audio payload and the
interruption flag is evaluated on a concrete state: the buffer is
scheduled and the reset still happens. -/
theorem onmessage_checks_independent_witness :
    AudioEvent.started 9 (max 7 2) ∈
      (onmessage ⟨[⟨3, false⟩], 7⟩ 2 9 ⟨some [], true⟩).2 ∧
    (onmessage ⟨[⟨3, false⟩], 7⟩ 2 9 ⟨some [], true⟩).1.sources = [] ∧
    (onmessage ⟨[⟨3, false⟩], 7⟩ 2 9 ⟨some [], true⟩).1.nextStartTime = 0 :=
  ⟨(onmessage_checks_independent ⟨[⟨3, false⟩], 7⟩ 2 9 ⟨some [], true⟩).1
      [] rfl,
   (onmessage_checks_independent ⟨[⟨3, false⟩], 7⟩ 2 9 ⟨some [], true⟩).2
      rfl⟩

/-- C1: `connect` while already `connecting` is *not* a no-op — from the
initial state, a first `connect` leaves the controller in the
`connecting` state, and a second `connect` issued there acquires a second
microphone stream and opens a second transport connection (the refs to
the first are overwritten without being closed), so two transport
connections and two capture streams are active at once. -/
theorem connect_while_connecting_not_noop :
    (connect initController ⟨0, 0⟩ 0 1 2 3).1.isConnecting = true ∧
    (connect (connect initController ⟨0, 0⟩ 0 1 2 3).1
        (connect initController ⟨0, 0⟩ 0 1 2 3).2 0 4 5 6).2.openTransports
      = 2 ∧
    (connect (connect initController ⟨0, 0⟩ 0 1 2 3).1
        (connect initController ⟨0, 0⟩ 0 1 2 3).2 0 4 5 6).2.activeMicStreams
      = 2 ∧
    (connect (connect initController ⟨0, 0⟩ 0 1 2 3).1
        (connect initController ⟨0, 0⟩ 0 1 2 3).2 0 4 5 6).1.stream = some 4 :=
  ⟨rfl, rfl, rfl, rfl⟩

/-- C4: `disconnect` is total and idempotent from every controller state:
it releases the microphone, closes the contexts, stops all playback,
closes the transport, resets the volume to 0 and both flags to false;
running it twice equals running it once; and from a `disconnected` state
its only effect is the idempotent reset of the volume to 0. -/
theorem disconnect_idempotent_total (s : Controller) (r : Resources) :
    disconnect (disconnect s r).1 (disconnect s r).2 = disconnect s r ∧
    (disconnect s r).1.stream = none ∧
    (disconnect s r).1.inputCtx = none ∧
    (disconnect s r).1.outputCtx = none ∧
    (disconnect s r).1.sources = [] ∧
    (disconnect s r).1.sessionConn = none ∧
    (disconnect s r).1.isConnected = false ∧
    (disconnect s r).1.isConnecting = false ∧
    (disconnect s r).1.volume = 0 ∧
    (s.scriptProcessor = none ∨ s.inputCtx ≠ none →
      (disconnect s r).1.scriptProcessor = none) ∧
    (isDisconnected s → disconnect s r = ({ s with volume := 0 }, r)) := by
  obtain ⟨ic, icg, em, v, st, sp, ictx, octx, sc, srcs, nst⟩ := s
  obtain ⟨ot, ms⟩ := r
  cases st <;> cases sp <;> cases ictx <;> cases sc <;>
    simp_all [disconnect, isDisconnected]

/-- C4 witness: `disconnect` on the never-connected initial state — no
state change beyond the idempotent reset of the volume to 0. -/
theorem disconnect_idempotent_total_witness :
    disconnect initController ⟨0, 0⟩ =
      ({ initController with volume := 0 }, ⟨0, 0⟩) :=
  (disconnect_idempotent_total initController ⟨0, 0⟩).2.2.2.2.2.2.2.2.2.2
    ⟨rfl, rfl, rfl, rfl, rfl, rfl, rfl, rfl⟩

theorem createBlobBytes_cons (a : ℚ) (l : List ℚ) :
    createBlobBytes (a :: l) =
      ((pcm16Sample a) % 65536).toNat % 256 ::
      ((pcm16Sample a) % 65536).toNat / 256 :: createBlobBytes l := rfl

/-- C8: float-to-PCM16 layout — the encoded frame holds exactly twice as
many bytes as input samples, and bytes `2i` and `2i + 1` are the
little-endian byte pair of the `i`-th sample after clamping to `[-1, 1]`,
scaling by 32767, and truncation. -/
theorem createBlob_layout (data : List ℚ) (i : ℕ) :
    (createBlobBytes data).length = 2 * data.length ∧
    (createBlobBytes data).get? (2 * i) =
      (data.get? i).map (fun x => ((pcm16Sample x) % 65536).toNat % 256) ∧
    (createBlobBytes data).get? (2 * i + 1) =
      (data.get? i).map (fun x => ((pcm16Sample x) % 65536).toNat / 256) := by
  induction data generalizing i with
  | nil => simp [createBlobBytes]
  | cons a l ih =>
      rw [createBlobBytes_cons]
      refine ⟨?_, ?_, ?_⟩
      · have := (ih 0).1
        simp only [List.length_cons, this, List.length_cons]
        omega
      · cases i with
        | zero => rfl
        | succ j =>
            have h2 : 2 * (j + 1) = 2 * j + 1 + 1 := by ring
            rw [h2, List.get?_cons_succ, List.get?_cons_succ,
              List.get?_cons_succ, (ih j).2.1]
      · cases i with
        | zero => rfl
        | succ j =>
            have h2 : 2 * (j + 1) + 1 = 2 * j + 1 + 1 + 1 := by ring
            rw [h2, List.get?_cons_succ, List.get?_cons_succ,
              List.get?_cons_succ, (ih j).2.2]

end BizFlow
